import Mathlib

/-!
Verification of the fabio control plane (main.go, iam, config/load.go)
against its natural-language specification.

The Go sources are shallowly embedded:
* `Fabio.Watch` — the `watchBackend` hot-reload loop as a step function on
  an explicit state, parameterised by the external routing-table compiler
  (`route.NewTable`), which the spec itself treats as an external
  collaborator.
* `Fabio.Shutdown` — the signal handler registered with `exit.Listen` in
  `main`, as the ordered list of actions it performs.
* `Fabio.InitB` — the `initBackend` registration retry loop, as a
  fuel-indexed trace of its observable actions over discrete time
  (time advances only in `time.Sleep`, matching the spec's
  "ignoring attempt/log execution time").
* `Fabio.Conf` — `parseListen` / `parseTLSVersion` / `parseUint16` from
  config/load.go, with Go's `strconv.ParseUint(s, 0, 32)` modelled
  digit-for-digit.
* `Fabio.Lg` — `logRoutes` and its inner `fmtDiff` from main.go.
* `Fabio.Iam` — `iam.New` and `DummyIAM`.
-/

namespace Fabio.Watch

/-- One notification delivered to the `select` in `watchBackend`:
either a service-config snapshot (`svccfg = <-svc`) or a manual-config
snapshot (`mancfg = <-man`). -/
inductive Event where
  | svc (v : String)
  | man (v : String)
deriving DecidableEq, Repr

/-- The mutable state of `watchBackend`: the two remembered snapshots,
the previously accepted concatenation `last`, the currently published
routing table (`route.SetTable`; `none` before the first publish), and
whether the `sync.Once` has run (the readiness gate `first` was closed). -/
structure WState where
  svccfg : String
  mancfg : String
  last : String
  table : Option String
  fired : Bool
deriving DecidableEq, Repr

/-- The observable effects of one loop iteration of `watchBackend`. -/
structure StepOut where
  /-- `route.NewTable(next)` was invoked. -/
  compiled : Bool
  /-- the compile-failure warning `log.Printf("[WARN] %s", err)` was emitted. -/
  warned : Bool
  /-- `route.SetTable(t)` was invoked (the table reference was replaced). -/
  published : Bool
  /-- `logRoutes` was invoked (a diff log could be produced). -/
  logged : Bool
  /-- `close(first)` ran inside `once.Do` (the readiness gate fired now). -/
  firedNow : Bool
deriving DecidableEq, Repr

/-- The `select`: update the remembered value for the notifying source
only; the other source's last-known value is retained. -/
def applyEvent (s : WState) : Event → WState
  | .svc v => { s with svccfg := v }
  | .man v => { s with mancfg := v }

/-- No observable effect (iteration skipped via `continue`). -/
def StepOut.none : StepOut := ⟨false, false, false, false, false⟩

/-- The concatenation built on every iteration:
`next := svccfg + "\n" + mancfg` (manual config overrides service config,
so it is appended last). -/
def nextOf (s : WState) : String := s.svccfg ++ "\n" ++ s.mancfg

/-- One iteration of the `for` loop in `watchBackend`, parameterised by the
external compiler `compile` (`route.NewTable`: `some t` on success, `none`
on error). Mirrors main.go lines 359-382: receive, build
`next := svccfg + "\n" + mancfg`, skip if `next == last`, compile,
on failure warn and `continue`, on success publish, log, set `last`,
and fire the readiness gate through `sync.Once`. -/
def step (compile : String → Option String) (s : WState) (e : Event) :
    WState × StepOut :=
  let s := applyEvent s e
  let next := nextOf s
  if next = s.last then
    (s, StepOut.none)
  else
    match compile next with
    | Option.none => (s, { StepOut.none with compiled := true, warned := true })
    | some t =>
        ({ s with table := some t, last := next, fired := true },
         { compiled := true, warned := false, published := true,
           logged := true, firedNow := !s.fired })

/-- Run `watchBackend` over a sequence of notifications, collecting the
per-iteration effects. -/
def run (compile : String → Option String) (s : WState) :
    List Event → WState × List StepOut
  | [] => (s, [])
  | e :: es =>
      let p := step compile s e
      let q := run compile p.1 es
      (q.1, p.2 :: q.2)

/-- The state at the top of `watchBackend`: empty snapshots, empty `last`,
no table published, gate not fired. -/
def init : WState := ⟨"", "", "", Option.none, false⟩

/-- Number of iterations that fired the readiness gate. -/
def countFires (os : List StepOut) : Nat :=
  os.countP (fun o => o.firedNow)

/-- Number of iterations that published a table. -/
def countPublishes (os : List StepOut) : Nat :=
  os.countP (fun o => o.published)

/-- Index of the first iteration satisfying `p`, if any. -/
def firstIdx (p : StepOut → Bool) : List StepOut → Option Nat
  | [] => Option.none
  | o :: os => if p o then some 0 else (firstIdx p os).map (· + 1)

end Fabio.Watch

namespace Fabio.Shutdown

/-- The observable actions of the signal handler registered with
`exit.Listen` in `main` (main.go lines 90-100). -/
inductive Action where
  /-- `atomic.StoreInt32(&shuttingDown, 1)` -/
  | setShuttingDown
  /-- `proxy.Shutdown(cfg.Proxy.ShutdownWait)` with the drain duration -/
  | stopListeners (wait : Nat)
  /-- `prof.Stop()` -/
  | stopProfiler
  /-- `registry.Default.Deregister()` -/
  | deregister
deriving DecidableEq, Repr

/-- The sequence of actions the handler performs on one signal delivery,
given whether profiling is active (`prof != nil`) and whether a registry
backend is active (`registry.Default != nil`). Mirrors main.go 90-100:
set the flag, stop the listeners, stop the profiler if active, then
return early if no registry backend is active, else deregister. -/
def handler (wait : Nat) (profActive registryActive : Bool) : List Action :=
  [Action.setShuttingDown, Action.stopListeners wait]
    ++ (if profActive then [Action.stopProfiler] else [])
    ++ (if registryActive then [Action.deregister] else [])

/-- The only write the handler performs on the `shuttingDown` flag:
`atomic.StoreInt32(&shuttingDown, 1)`, regardless of the old value. -/
def storeShuttingDown (_old : Nat) : Nat := 1

/-- The flag value after `n` deliveries of the termination signal,
starting from the initial value 0. -/
def flagAfter : Nat → Nat
  | 0 => 0
  | n + 1 => storeShuttingDown (flagAfter n)

/-- The last action the handler performs, if any. -/
def lastAction : List Action → Option Action
  | [] => Option.none
  | a :: rest => match rest with
      | [] => some a
      | b :: more => lastAction (b :: more)

end Fabio.Shutdown

namespace Fabio.InitB

/-- The observable actions of the `initBackend` retry loop
(main.go lines 313-345). -/
inductive Act where
  /-- construct the backend and call `registry.Default.Register()` -/
  | attempt
  /-- `log.Print("[WARN] Error initializing backend. ", err)` -/
  | warn
  /-- evaluate `time.Now().After(deadline)` -/
  | deadlineCheck
  /-- `exit.Fatal("[FATAL] Timeout registering backend.")` -/
  | fatal
  /-- `time.Sleep(cfg.Registry.Retry)` -/
  | sleep
  /-- evaluate `atomic.LoadInt32(&shuttingDown) > 0` -/
  | shutdownCheck
  /-- `exit.Exit(1)` -/
  | exitNow
  /-- `return` after successful registration -/
  | done
deriving DecidableEq, Repr

/-- The trace of the `for` loop of `initBackend` over discrete time.
`ok k` tells whether the k-th attempt (construct + register) succeeds;
`down t` tells whether the shutdown flag is observed set at elapsed time
`t`; `R` is the retry interval `cfg.Registry.Retry` and `D` the timeout
`cfg.Registry.Timeout`, so the deadline computed at loop entry
(`time.Now().Add(cfg.Registry.Timeout)`) is passed exactly when the
elapsed time `t` is strictly greater than `D` (`time.Now().After`).
Time advances only in `time.Sleep` (attempt and log time are ignored).
`fuel` bounds the number of iterations so the recursion is structural;
every theorem supplies enough fuel for the behaviour it states. -/
def loop (ok : Nat → Bool) (down : Nat → Bool) (R D : Nat) :
    Nat → Nat → Nat → List Act
  | 0, _, _ => []
  | fuel + 1, k, t =>
      if ok k then [Act.attempt, Act.done]
      else
        [Act.attempt, Act.warn, Act.deadlineCheck]
          ++ (if D < t then [Act.fatal]
              else [Act.sleep, Act.shutdownCheck]
                ++ (if down (t + R) then [Act.exitNow]
                    else loop ok down R D fuel (k + 1) (t + R)))

/-- The trace of `initBackend` from loop entry: first attempt is attempt 0,
elapsed time 0. -/
def initTrace (ok down : Nat → Bool) (R D fuel : Nat) : List Act :=
  loop ok down R D fuel 0 0

/-- Number of registration attempts in a trace. -/
def countAttempts (tr : List Act) : Nat :=
  tr.countP (fun a => a = Act.attempt)

/-- A backend that fails every attempt. -/
def alwaysFail : Nat → Bool := fun _ => false

/-- No shutdown request ever arrives. -/
def noShutdown : Nat → Bool := fun _ => false

/-- The last action of a trace, if any. -/
def lastAct : List Act → Option Act
  | [] => Option.none
  | a :: rest => match rest with
      | [] => some a
      | b :: more => lastAct (b :: more)

end Fabio.InitB

namespace Fabio.Str

/-- Go `unicode.IsSpace` restricted to the Latin-1 range, as in
`strings.TrimSpace` (the configuration strings at issue are ASCII). -/
def isGoSpace (c : Char) : Bool :=
  c = ' ' ∨ c = '\t' ∨ c = '\n' ∨ c = '\x0b' ∨ c = '\x0c' ∨ c = '\r' ∨
    c = '\x85' ∨ c = '\xa0'

/-- Go `strings.TrimSpace`: strip leading and trailing white space. -/
def trimSpace (s : String) : String :=
  String.mk (((s.data.dropWhile isGoSpace).reverse.dropWhile isGoSpace).reverse)

/-- Go `strings.ToLower` on the ASCII range. -/
def toLowerStr (s : String) : String :=
  String.mk (s.data.map fun c =>
    if 'A' ≤ c ∧ c ≤ 'Z' then Char.ofNat (c.toNat + 32) else c)

/-- Go `strings.ToUpper` on the ASCII range. -/
def toUpperStr (s : String) : String :=
  String.mk (s.data.map fun c =>
    if 'a' ≤ c ∧ c ≤ 'z' then Char.ofNat (c.toNat - 32) else c)

/-- Go `strings.Split(s, ",")`: split on every comma. -/
def splitOnComma (s : String) : List String :=
  (s.data.foldr
    (fun c acc =>
      match acc with
      | [] => [[c]]
      | g :: gs => if c = ',' then [] :: (g :: gs) else (c :: g) :: gs)
    [[]]).map String.mk

/-- Does `pat` occur at the head of `s`? -/
def startsWithSeg : List Char → List Char → Bool
  | _, [] => true
  | [], _ :: _ => false
  | c :: cs, p :: ps => c == p && startsWithSeg cs ps

/-- Does `pat` occur as a contiguous segment of `s`? -/
def containsSeg (s pat : List Char) : Bool :=
  match s with
  | [] => pat.isEmpty
  | _ :: cs => startsWithSeg s pat || containsSeg cs pat

end Fabio.Str

namespace Fabio.Conf

/-- Go's `strconv` internal `lower(c) = c | ('x' - 'X')`. -/
def goLower (c : Char) : Char := Char.ofNat (c.toNat ||| 0x20)

/-- The digit value of a character in `strconv.ParseUint`:
`'0'..'9'` and (case-insensitively) `'a'..'z'` as 10..35; anything else
is a syntax error. -/
def digitVal (c : Char) : Option Nat :=
  if '0' ≤ c ∧ c ≤ '9' then some (c.toNat - '0'.toNat)
  else if 'a' ≤ goLower c ∧ goLower c ≤ 'z' then
    some ((goLower c).toNat - 'a'.toNat + 10)
  else Option.none

/-- The scan of `strconv.underscoreOK` after sign and base-prefix handling:
`saw` is the class of the previous character (`'^'` start, `'0'` digit or
base prefix, `'_'` underscore, `'!'` other). -/
def underscoreLoop (hex : Bool) : List Char → Char → Bool
  | [], saw => !(saw == '_')
  | c :: cs, saw =>
      if ('0' ≤ c ∧ c ≤ '9') ∨ (hex ∧ 'a' ≤ goLower c ∧ goLower c ≤ 'f') then
        underscoreLoop hex cs '0'
      else if c = '_' then
        if saw ≠ '0' then false else underscoreLoop hex cs '_'
      else if saw = '_' then false
      else underscoreLoop hex cs '!'

/-- Go's `strconv.underscoreOK(s)`: underscores are allowed only between
digits, or between the base prefix and a digit. -/
def underscoreOK (s : List Char) : Bool :=
  let s1 := match s with
    | c :: cs => if c = '-' ∨ c = '+' then cs else s
    | [] => s
  match s1 with
  | c0 :: c1 :: rest =>
      if c0 = '0' ∧ (goLower c1 = 'b' ∨ goLower c1 = 'o' ∨ goLower c1 = 'x') then
        underscoreLoop (goLower c1 == 'x') rest '0'
      else underscoreLoop false s1 '^'
  | _ => underscoreLoop false s1 '^'

/-- The digit loop of `strconv.ParseUint` with `base0 = true`: `'_'` is
skipped (recorded), other characters must be digits below the base.
Returns the accumulated value and whether an underscore was seen; `none`
is a syntax error. -/
def parseDigits (base : Nat) : List Char → Nat → Bool → Option (Nat × Bool)
  | [], n, u => some (n, u)
  | c :: cs, n, u =>
      if c = '_' then parseDigits base cs n true
      else match digitVal c with
        | Option.none => Option.none
        | some d =>
            if base ≤ d then Option.none
            else parseDigits base cs (n * base + d) u

/-- Model of Go `strconv.ParseUint(s, 0, 32)`: empty input is a syntax
error; base 0 detects `0b`/`0o`/`0x` prefixes (when at least one more
character follows) and a bare leading `0` as octal, else decimal;
underscores are allowed per `underscoreOK` on the original string.
All errors (syntax and range) collapse to `none`, since `parseUint16`
treats every error alike; the range error is detected by comparing the
exact accumulated value with `2^32 - 1`, which errs on exactly the same
inputs as Go's incremental cutoff/overflow checks. -/
def goParseUint32 (s : String) : Option Nat :=
  match s.data with
  | [] => Option.none
  | c0 :: rest =>
      let bd : Nat × List Char :=
        if c0 = '0' then
          match rest with
          | c1 :: c2 :: more =>
              if goLower c1 = 'b' then (2, c2 :: more)
              else if goLower c1 = 'o' then (8, c2 :: more)
              else if goLower c1 = 'x' then (16, c2 :: more)
              else (8, rest)
          | _ => (8, rest)
        else (10, s.data)
      match parseDigits bd.1 bd.2 0 false with
      | Option.none => Option.none
      | some (n, u) =>
          if u ∧ !underscoreOK s.data then Option.none
          else if 2 ^ 32 - 1 < n then Option.none
          else some n

/-- `parseUint16` from config/load.go lines 474-483: parse with
`strconv.ParseUint(s, 0, 32)`; on error return it (modelled as a generic
parse-error text); reject values with `n > 1<<16`; otherwise truncate to
`uint16(n)`, i.e. reduce modulo `2^16`. -/
def parseUint16 (s : String) : Except String Nat :=
  match goParseUint32 s with
  | Option.none => Except.error "parse error"
  | some n =>
      if 2 ^ 16 < n then
        Except.error (toString n ++ " out of range: [0..65535]")
      else Except.ok (n % 2 ^ 16)

/-- The `tlsver` map from config/load.go (`tls.VersionSSL30` is `0x0300`,
`tls.VersionTLS10`-`tls.VersionTLS12` are `0x0301`-`0x0303`). -/
def tlsver : List (String × Nat) :=
  [("ssl30", 0x0300), ("tls10", 0x0301), ("tls11", 0x0302), ("tls12", 0x0303)]

/-- The `tlsciphers` map from config/load.go. -/
def tlsciphers : List (String × Nat) :=
  [("TLS_RSA_WITH_RC4_128_SHA", 0x0005),
   ("TLS_RSA_WITH_3DES_EDE_CBC_SHA", 0x000a),
   ("TLS_RSA_WITH_AES_128_CBC_SHA", 0x002f),
   ("TLS_RSA_WITH_AES_256_CBC_SHA", 0x0035),
   ("TLS_RSA_WITH_AES_128_CBC_SHA256", 0x003c),
   ("TLS_RSA_WITH_AES_128_GCM_SHA256", 0x009c),
   ("TLS_RSA_WITH_AES_256_GCM_SHA384", 0x009d),
   ("TLS_ECDHE_ECDSA_WITH_RC4_128_SHA", 0xc007),
   ("TLS_ECDHE_ECDSA_WITH_AES_128_CBC_SHA", 0xc009),
   ("TLS_ECDHE_ECDSA_WITH_AES_256_CBC_SHA", 0xc00a),
   ("TLS_ECDHE_RSA_WITH_RC4_128_SHA", 0xc011),
   ("TLS_ECDHE_RSA_WITH_3DES_EDE_CBC_SHA", 0xc012),
   ("TLS_ECDHE_RSA_WITH_AES_128_CBC_SHA", 0xc013),
   ("TLS_ECDHE_RSA_WITH_AES_256_CBC_SHA", 0xc014),
   ("TLS_ECDHE_ECDSA_WITH_AES_128_CBC_SHA256", 0xc023),
   ("TLS_ECDHE_RSA_WITH_AES_128_CBC_SHA256", 0xc027),
   ("TLS_ECDHE_RSA_WITH_AES_128_GCM_SHA256", 0xc02f),
   ("TLS_ECDHE_ECDSA_WITH_AES_128_GCM_SHA256", 0xc02b),
   ("TLS_ECDHE_RSA_WITH_AES_256_GCM_SHA384", 0xc030),
   ("TLS_ECDHE_ECDSA_WITH_AES_256_GCM_SHA384", 0xc02c),
   ("TLS_ECDHE_RSA_WITH_CHACHA20_POLY1305", 0xcca8),
   ("TLS_ECDHE_ECDSA_WITH_CHACHA20_POLY1305", 0xcca9)]

/-- `parseTLSVersion` from config/load.go: trim and lowercase, look the
name up in `tlsver`, else fall back to `parseUint16`. -/
def parseTLSVersion (s : String) : Except String Nat :=
  let s := Str.toLowerStr (Str.trimSpace s)
  match tlsver.lookup s with
  | some n => Except.ok n
  | Option.none => parseUint16 s

/-- `parseTLSCiphers` from config/load.go: split on `","`, trim and
uppercase each entry, look it up in `tlsciphers`, else `parseUint16`. -/
def parseTLSCiphers (s : String) : Except String (List Nat) :=
  (Str.splitOnComma s).foldlM
    (fun acc v =>
      let v := Str.toUpperStr (Str.trimSpace v)
      match tlsciphers.lookup v with
      | some n => Except.ok (acc ++ [n])
      | Option.none =>
          match parseUint16 v with
          | Except.error e => Except.error e
          | Except.ok n => Except.ok (acc ++ [n]))
    []

/-- `config.CertSource` (config/config.go); `http.Header` is modelled as a
key-value list and `time.Duration` as nanoseconds. -/
structure CertSource where
  name : String := ""
  type : String := ""
  certPath : String := ""
  keyPath : String := ""
  clientCAPath : String := ""
  caUpgradeCN : String := ""
  refresh : Nat := 0
  header : List (String × String) := []
deriving DecidableEq, Repr

/-- `config.Listen` (config/config.go). -/
structure Listen where
  addr : String := ""
  proto : String := ""
  readTimeout : Nat := 0
  writeTimeout : Nat := 0
  certSource : CertSource := {}
  strictMatch : Bool := false
  tlsMinVersion : Nat := 0
  tlsMaxVersion : Nat := 0
  tlsCiphers : List Nat := []
deriving DecidableEq, Repr

/-- Go `%q` for the plain identifiers appearing in these error messages. -/
def quoteStr (s : String) : String := "\"" ++ s ++ "\""

/-- The `for k, v := range cfg` loop body of `parseListen`
(config/load.go lines 344-399), over the map entries in iteration order.
`parseDur` stands for `time.ParseDuration` (Go standard library),
`cs` for the certificate-source map, `csName` for the local of the same
name. Keys not named in the `switch` are ignored, as in Go. -/
def parseListenLoop (parseDur : String → Except String Nat)
    (cs : List (String × CertSource)) :
    List (String × String) → Listen → String → Except String (Listen × String)
  | [], l, csName => Except.ok (l, csName)
  | (k, v) :: rest, l, csName =>
      if k = "" ∨ k = "addr" then
        parseListenLoop parseDur cs rest { l with addr := v } csName
      else if k = "proto" then
        if v = "tcp" ∨ v = "tcp+sni" ∨ v = "http" ∨ v = "https" then
          parseListenLoop parseDur cs rest { l with proto := v } csName
        else Except.error ("unknown protocol " ++ quoteStr v)
      else if k = "rt" then
        match parseDur v with
        | Except.error e => Except.error e
        | Except.ok d =>
            parseListenLoop parseDur cs rest { l with readTimeout := d } csName
      else if k = "wt" then
        match parseDur v with
        | Except.error e => Except.error e
        | Except.ok d =>
            parseListenLoop parseDur cs rest { l with writeTimeout := d } csName
      else if k = "cs" then
        match cs.lookup v with
        | Option.none =>
            Except.error ("unknown certificate source " ++ quoteStr v)
        | some c =>
            let l := { l with certSource := c }
            let l := if l.proto = "" then { l with proto := "https" } else l
            parseListenLoop parseDur cs rest l v
      else if k = "strictmatch" then
        parseListenLoop parseDur cs rest { l with strictMatch := v = "true" } csName
      else if k = "tlsmin" then
        match parseTLSVersion v with
        | Except.error e => Except.error e
        | Except.ok n =>
            parseListenLoop parseDur cs rest { l with tlsMinVersion := n } csName
      else if k = "tlsmax" then
        match parseTLSVersion v with
        | Except.error e => Except.error e
        | Except.ok n =>
            parseListenLoop parseDur cs rest { l with tlsMaxVersion := n } csName
      else if k = "tlsciphers" then
        match parseTLSCiphers v with
        | Except.error e => Except.error e
        | Except.ok c =>
            parseListenLoop parseDur cs rest { l with tlsCiphers := c } csName
      else
        parseListenLoop parseDur cs rest l csName

/-- `parseListen` (config/load.go lines 337-415): seed the listener with
the global read/write timeouts, process every key-value entry, then apply
the defaults and validity checks in source order: default proto `http`,
an address is required, a cert source requires proto `https` or `tcp`,
and proto `https` requires a cert source. -/
def parseListen (parseDur : String → Except String Nat)
    (cfg : List (String × String)) (cs : List (String × CertSource))
    (readTimeout writeTimeout : Nat) : Except String Listen :=
  match parseListenLoop parseDur cs cfg
      { readTimeout := readTimeout, writeTimeout := writeTimeout } "" with
  | Except.error e => Except.error e
  | Except.ok (l, csName) =>
      let l := if l.proto = "" then { l with proto := "http" } else l
      if l.addr = "" then Except.error "need listening host:port"
      else if csName ≠ "" ∧ l.proto ≠ "https" ∧ l.proto ≠ "tcp" then
        Except.error "cert source requires proto \x27https\x27 or \x27tcp\x27"
      else if csName = "" ∧ l.proto = "https" then
        Except.error "proto \x27https\x27 requires cert source"
      else Except.ok l

/-- The kind of serving unit `startServers` launches for one listener. -/
inductive ServerKind where
  | httpUnit
  | tcpUnit
  | sniUnit
deriving DecidableEq, Repr

/-- The protocol dispatch of `startServers` (main.go lines 254-278): which
serving unit is started for a listener descriptor, or the fatal error for
an invalid protocol. `http` and `https` share the HTTP proxy unit; `tcp`
starts the opaque TCP relay; `tcp+sni` starts the SNI pass-through relay.
Each unit receives the TLS configuration `makeTLSConfig` resolves from the
listener's certificate source (present exactly when the descriptor names
one). -/
def startServer (l : Listen) : Except String ServerKind :=
  if l.proto = "http" ∨ l.proto = "https" then Except.ok ServerKind.httpUnit
  else if l.proto = "tcp" then Except.ok ServerKind.tcpUnit
  else if l.proto = "tcp+sni" then Except.ok ServerKind.sniUnit
  else Except.error ("Invalid protocol " ++ l.proto)

end Fabio.Conf

namespace Fabio.Lg

/-- `diffmatchpatch.Operation`: deletion, insertion, or equality. -/
inductive DiffType where
  | delete
  | insert
  | equal
deriving DecidableEq, Repr

/-- `diffmatchpatch.Diff`: one piece of the diff between two texts. -/
structure Diff where
  type : DiffType
  text : String
deriving DecidableEq, Repr

/-- Go `strings.Replace(t, "\n", marker, -1)` for a single-character
pattern: every newline is replaced by `marker`. -/
def replaceNl (t : List Char) (marker : List Char) : List Char :=
  (t.map fun c => if c = '\n' then marker else [c]).flatten

/-- One iteration of the `for _, d := range diffs` loop in the `fmtDiff`
closure of `logRoutes` (main.go lines 386-403): blank pieces are skipped;
deletions are rendered with a `"- "` prefix (repeated after every embedded
newline), insertions with `"+ "`; equalities render nothing. -/
def fmtDiffStep (b : String) (d : Diff) : String :=
  let t := Str.trimSpace d.text
  if t = "" then b
  else match d.type with
    | DiffType.delete => b ++ "- " ++ String.mk (replaceNl t.data "\n- ".data)
    | DiffType.insert => b ++ "+ " ++ String.mk (replaceNl t.data "\n+ ".data)
    | DiffType.equal => b

/-- The `fmtDiff` closure of `logRoutes`. -/
def fmtDiff (diffs : List Diff) : String := diffs.foldl fmtDiffStep ""

/-- One log line emitted by `logRoutes`. -/
inductive LogLine where
  | info (s : String)
  | warn (s : String)
deriving DecidableEq, Repr

/-- Modelled from the spec: the text-diff engine `diffmatchpatch.DiffMain`
(third-party library github.com/sergi/go-diff, called as
`dmp.New().DiffMain(last, next, true)` in main.go line 411) is not part of
this repository's sources. On the inputs exercised here — the spec's
scenario previous `"a\nb"` / next `"a\nc"`, and texts with no non-blank
changes — DiffMain reduces to its common-prefix/common-suffix
decomposition: the shared prefix and suffix become equalities and the
remaining middles one deletion (from the old text) and one insertion
(from the new text), empty pieces omitted; in particular identical texts
yield a single equality and no insertions or deletions. -/
def diffMain (a b : String) : List Diff :=
  let p := commonLen a.data b.data
  let as1 := a.data.drop p
  let bs1 := b.data.drop p
  let s := commonLen as1.reverse bs1.reverse
  let mid1 := as1.take (as1.length - s)
  let mid2 := bs1.take (bs1.length - s)
  (if p ≠ 0 then [Diff.mk DiffType.equal (String.mk (a.data.take p))] else [])
    ++ (if mid1 ≠ [] then [Diff.mk DiffType.delete (String.mk mid1)] else [])
    ++ (if mid2 ≠ [] then [Diff.mk DiffType.insert (String.mk mid2)] else [])
    ++ (if s ≠ 0 then
          [Diff.mk DiffType.equal (String.mk (as1.drop (as1.length - s)))]
        else [])
where
  commonLen : List Char → List Char → Nat
    | x :: xs, y :: ys => if x = y then commonLen xs ys + 1 else 0
    | _, _ => 0

/-- The three recognised branches of the `switch format` in `logRoutes`
(main.go lines 406-417). `dm` stands for the diff engine, `dump` for
`t.Dump()`. -/
def logRoutesKnown (dm : String → String → List Diff)
    (dump last next : String) : String → List LogLine
  | "detail" => [LogLine.info ("Updated config to\n" ++ dump)]
  | "delta" =>
      let delta := fmtDiff (dm last next)
      if delta ≠ "" then [LogLine.info ("Config updates\n" ++ delta)] else []
  | "all" => [LogLine.info ("Updated config to\n" ++ next)]
  | _ => []

/-- `logRoutes` (main.go lines 385-422): a recognised format logs per its
branch; any other format logs a warning and re-runs with the default
format `"delta"`. -/
def logRoutes (dm : String → String → List Diff)
    (dump last next format : String) : List LogLine :=
  if format = "detail" ∨ format = "delta" ∨ format = "all" then
    logRoutesKnown dm dump last next format
  else
    LogLine.warn ("Invalid route format " ++ Conf.quoteStr format
        ++ ". Defaulting to " ++ Conf.quoteStr "delta")
      :: logRoutesKnown dm dump last next "delta"

end Fabio.Lg

namespace Fabio.Iam

/-- `config.Auth` (config/config.go). -/
structure Auth where
  type : String := ""
  configFile : String := ""
  enabled : Bool := false
deriving DecidableEq, Repr

/-- An HTTP request; opaque to the IAM implementations at issue. -/
structure Request where
  host : String := ""
  path : String := ""
deriving DecidableEq, Repr

/-- An implementation of the `iam.IAM` interface. A Go `error` result is
an `Option String` (`none` is nil); `Authenticate`'s `interface{}` auth
data is `Unit`, matching `DummyIAM`'s `struct{}{}`. -/
structure IAMImpl where
  init : String → Option String
  authenticate : Request → Unit × Option String
  authorize : Request → Unit → Option String

/-- `iam.DummyIAM`: `Init`, `Authenticate` and `Authorize` are no-ops that
never return an error. -/
def dummyIAM : IAMImpl where
  init := fun _ => Option.none
  authenticate := fun _ => ((), Option.none)
  authorize := fun _ _ => Option.none

/-- `iam.New` (iam package), with Go's named results `(iam IAM, err error)`
as a pair: type `"dummy"` yields a `DummyIAM` handle and the result of
`iam.Init(conf.ConfigFile)` as the error; any other type returns a nil
handle and an `unsupported auth type` error. -/
def New (conf : Auth) : Option IAMImpl × Option String :=
  if conf.type = "dummy" then
    (some dummyIAM, dummyIAM.init conf.configFile)
  else
    (Option.none, some ("unsupported auth type: " ++ conf.type))

end Fabio.Iam


namespace Fabio.Watch

theorem applyEvent_last (s : WState) (e : Event) :
    (applyEvent s e).last = s.last := by
  cases e <;> rfl

theorem applyEvent_table (s : WState) (e : Event) :
    (applyEvent s e).table = s.table := by
  cases e <;> rfl

theorem applyEvent_fired (s : WState) (e : Event) :
    (applyEvent s e).fired = s.fired := by
  cases e <;> rfl

theorem step_skip (compile : String → Option String) (s : WState) (e : Event)
    (h : nextOf (applyEvent s e) = s.last) :
    step compile s e = (applyEvent s e, StepOut.none) := by
  unfold step
  simp only [applyEvent_last]
  rw [if_pos h]

theorem step_fail (compile : String → Option String) (s : WState) (e : Event)
    (h1 : nextOf (applyEvent s e) ≠ s.last)
    (h2 : compile (nextOf (applyEvent s e)) = Option.none) :
    step compile s e
      = (applyEvent s e, { StepOut.none with compiled := true, warned := true }) := by
  unfold step
  simp only [applyEvent_last]
  rw [if_neg h1, h2]

theorem step_publish (compile : String → Option String) (s : WState) (e : Event)
    (t : String)
    (h1 : nextOf (applyEvent s e) ≠ s.last)
    (h2 : compile (nextOf (applyEvent s e)) = some t) :
    step compile s e
      = ({ applyEvent s e with
            table := some t, last := nextOf (applyEvent s e), fired := true },
         { compiled := true, warned := false, published := true,
           logged := true, firedNow := !s.fired }) := by
  unfold step
  simp only [applyEvent_last]
  rw [if_neg h1, h2]
  simp [applyEvent_fired]

/-- C1: in `watchBackend`, a notification whose concatenation
`next = discovered + "\n" + manual` fails to compile is dropped with no
partial effect: the warning is logged, the current table is not replaced,
the accepted concatenation `last` is not updated, `logRoutes` is not
invoked (so no diff log is produced), and the readiness gate is not
fired. -/
theorem compile_failure_drops_update
    (compile : String → Option String) (s : WState) (e : Event)
    (h1 : nextOf (applyEvent s e) ≠ s.last)
    (h2 : compile (nextOf (applyEvent s e)) = Option.none) :
    (step compile s e).1.table = s.table ∧
    (step compile s e).1.last = s.last ∧
    (step compile s e).1.fired = s.fired ∧
    (step compile s e).2.warned = true ∧
    (step compile s e).2.published = false ∧
    (step compile s e).2.logged = false ∧
    (step compile s e).2.firedNow = false := by
  rw [step_fail compile s e h1 h2]
  exact ⟨applyEvent_table s e, applyEvent_last s e, applyEvent_fired s e,
    rfl, rfl, rfl, rfl⟩

theorem compile_failure_drops_update_witness :
    (step (fun _ => Option.none) init (Event.svc "x")).1.table = init.table ∧
    (step (fun _ => Option.none) init (Event.svc "x")).1.last = init.last ∧
    (step (fun _ => Option.none) init (Event.svc "x")).1.fired = init.fired ∧
    (step (fun _ => Option.none) init (Event.svc "x")).2.warned = true ∧
    (step (fun _ => Option.none) init (Event.svc "x")).2.published = false ∧
    (step (fun _ => Option.none) init (Event.svc "x")).2.logged = false ∧
    (step (fun _ => Option.none) init (Event.svc "x")).2.firedNow = false :=
  compile_failure_drops_update (fun _ => Option.none) init (Event.svc "x")
    (by decide) rfl

/-- C2: in `watchBackend`, a notification for which the concatenation
equals the previously accepted one byte-for-byte is skipped entirely:
no compile is attempted, the table is not replaced, `logRoutes` is not
invoked (no diff log line), and the readiness gate is not fired. -/
theorem unchanged_concat_skips
    (compile : String → Option String) (s : WState) (e : Event)
    (h : nextOf (applyEvent s e) = s.last) :
    (step compile s e).2.compiled = false ∧
    (step compile s e).2.published = false ∧
    (step compile s e).2.logged = false ∧
    (step compile s e).2.firedNow = false ∧
    (step compile s e).1.table = s.table ∧
    (step compile s e).1.last = s.last ∧
    (step compile s e).1.fired = s.fired := by
  rw [step_skip compile s e h]
  exact ⟨rfl, rfl, rfl, rfl, applyEvent_table s e, applyEvent_last s e,
    applyEvent_fired s e⟩

theorem unchanged_concat_skips_witness :
    (step some ⟨"a", "b", "a\nb", Option.none, false⟩ (Event.svc "a")).2.compiled
        = false ∧
    (step some ⟨"a", "b", "a\nb", Option.none, false⟩ (Event.svc "a")).2.published
        = false ∧
    (step some ⟨"a", "b", "a\nb", Option.none, false⟩ (Event.svc "a")).2.logged
        = false ∧
    (step some ⟨"a", "b", "a\nb", Option.none, false⟩ (Event.svc "a")).2.firedNow
        = false ∧
    (step some ⟨"a", "b", "a\nb", Option.none, false⟩ (Event.svc "a")).1.table
        = (⟨"a", "b", "a\nb", Option.none, false⟩ : WState).table ∧
    (step some ⟨"a", "b", "a\nb", Option.none, false⟩ (Event.svc "a")).1.last
        = (⟨"a", "b", "a\nb", Option.none, false⟩ : WState).last ∧
    (step some ⟨"a", "b", "a\nb", Option.none, false⟩ (Event.svc "a")).1.fired
        = (⟨"a", "b", "a\nb", Option.none, false⟩ : WState).fired :=
  unchanged_concat_skips some ⟨"a", "b", "a\nb", Option.none, false⟩
    (Event.svc "a") (by decide)

/-- Case analysis on one `watchBackend` iteration: skip, compile failure,
or publish. -/
theorem step_cases (compile : String → Option String) (s : WState) (e : Event) :
    step compile s e = (applyEvent s e, StepOut.none) ∨
    step compile s e
        = (applyEvent s e, { StepOut.none with compiled := true, warned := true }) ∨
    ∃ t, compile (nextOf (applyEvent s e)) = some t ∧
      step compile s e
        = ({ applyEvent s e with
              table := some t, last := nextOf (applyEvent s e), fired := true },
           { compiled := true, warned := false, published := true,
             logged := true, firedNow := !s.fired }) := by
  by_cases h1 : nextOf (applyEvent s e) = s.last
  · exact Or.inl (step_skip compile s e h1)
  · cases h2 : compile (nextOf (applyEvent s e)) with
    | none => exact Or.inr (Or.inl (step_fail compile s e h1 h2))
    | some t => exact Or.inr (Or.inr ⟨t, rfl, step_publish compile s e t h1 h2⟩)

/-- Once the gate has fired, no later iteration fires it again. -/
theorem run_fires_of_fired (compile : String → Option String) :
    ∀ (es : List Event) (s : WState), s.fired = true →
      countFires (run compile s es).2 = 0
  | [], _, _ => by simp [run, countFires]
  | e :: es, s, h => by
      rcases step_cases compile s e with hs | hs | ⟨t, _, hs⟩ <;>
        simp only [run, hs, countFires, List.countP_cons] <;>
        rw [show (run compile _ es).2.countP (fun o => o.firedNow)
              = countFires (run compile _ es).2 from rfl,
            run_fires_of_fired compile es _ (by simp [applyEvent_fired, h])] <;>
        simp [StepOut.none, h]

/-- From an unfired state, the gate fires exactly when the first publish
happens: the number of fires equals `min 1 (number of publishes)`. -/
theorem run_fires_min (compile : String → Option String) :
    ∀ (es : List Event) (s : WState), s.fired = false →
      countFires (run compile s es).2
        = min 1 (countPublishes (run compile s es).2)
  | [], _, _ => by simp [run, countFires, countPublishes]
  | e :: es, s, h => by
      rcases step_cases compile s e with hs | hs | ⟨t, _, hs⟩
      · simp only [run, hs, countFires, countPublishes, List.countP_cons]
        rw [show (run compile _ es).2.countP (fun o => o.firedNow)
              = countFires (run compile _ es).2 from rfl,
            show (run compile _ es).2.countP (fun o => o.published)
              = countPublishes (run compile _ es).2 from rfl,
            run_fires_min compile es _ (by simp [applyEvent_fired, h])]
        simp [StepOut.none]
      · simp only [run, hs, countFires, countPublishes, List.countP_cons]
        rw [show (run compile _ es).2.countP (fun o => o.firedNow)
              = countFires (run compile _ es).2 from rfl,
            show (run compile _ es).2.countP (fun o => o.published)
              = countPublishes (run compile _ es).2 from rfl,
            run_fires_min compile es _ (by simp [applyEvent_fired, h])]
        simp [StepOut.none]
      · simp only [run, hs, countFires, countPublishes, List.countP_cons]
        rw [show (run compile _ es).2.countP (fun o => o.firedNow)
              = countFires (run compile _ es).2 from rfl,
            run_fires_of_fired compile es _ (by simp)]
        simp [h]

/-- From an unfired state, the first fire and the first publish happen at
the same iteration. -/
theorem run_first_fire_eq_first_publish (compile : String → Option String) :
    ∀ (es : List Event) (s : WState), s.fired = false →
      firstIdx (fun o => o.firedNow) (run compile s es).2
        = firstIdx (fun o => o.published) (run compile s es).2
  | [], _, _ => by simp [run, firstIdx]
  | e :: es, s, h => by
      rcases step_cases compile s e with hs | hs | ⟨t, _, hs⟩
      · simp only [run, hs, firstIdx, StepOut.none]
        rw [run_first_fire_eq_first_publish compile es _
              (by simp [applyEvent_fired, h])]
      · simp only [run, hs, firstIdx, StepOut.none]
        rw [run_first_fire_eq_first_publish compile es _
              (by simp [applyEvent_fired, h])]
      · simp [run, hs, firstIdx, h]

/-- Every iteration that fires the gate is a publishing iteration. -/
theorem run_fire_is_publish (compile : String → Option String) :
    ∀ (es : List Event) (s : WState) (o : StepOut),
      o ∈ (run compile s es).2 → o.firedNow = true → o.published = true
  | [], _, _, ho, _ => by simp [run] at ho
  | e :: es, s, o, ho, hf => by
      rcases step_cases compile s e with hs | hs | ⟨t, _, hs⟩ <;>
        simp only [run, hs, List.mem_cons] at ho <;>
        rcases ho with rfl | ho
      · simp [StepOut.none] at hf
      · exact run_fire_is_publish compile es _ o ho hf
      · simp [StepOut.none] at hf
      · exact run_fire_is_publish compile es _ o ho hf
      · rfl
      · exact run_fire_is_publish compile es _ o ho hf

/-- C3: over any run of `watchBackend` from its initial state, with any
compiler behaviour, the readiness gate fires exactly once as soon as there
is at least one successfully compiled and published update (fire count
equals `min 1` of the publish count, so it never fires twice), the fire
happens at the first successful publish, and it never fires on an
iteration that does not publish. -/
theorem readiness_gate_fires_once (compile : String → Option String)
    (es : List Event) :
    countFires (run compile init es).2
        = min 1 (countPublishes (run compile init es).2) ∧
    firstIdx (fun o => o.firedNow) (run compile init es).2
        = firstIdx (fun o => o.published) (run compile init es).2 ∧
    ∀ o ∈ (run compile init es).2, o.firedNow = true → o.published = true :=
  ⟨run_fires_min compile es init rfl,
   run_first_fire_eq_first_publish compile es init rfl,
   fun o ho hf => run_fire_is_publish compile es init o ho hf⟩

theorem readiness_gate_fires_once_witness :
    countFires (run some init [Event.svc "a", Event.svc "b"]).2
        = min 1 (countPublishes (run some init [Event.svc "a", Event.svc "b"]).2) :=
  (readiness_gate_fires_once some [Event.svc "a", Event.svc "b"]).1

end Fabio.Watch

namespace Fabio.Shutdown

/-- C4: on every delivery of a termination signal the handler first sets
the shutdown flag (an idempotent store of 1 — the flag is 1 after any
positive number of deliveries and no handler write ever resets it),
then stops the listeners with the configured drain duration, then stops
the profiling collector exactly when profiling was active, then
deregisters exactly when a registry backend is active (when none is, the
handler returns without deregistering); when both trailing steps happen
the profiler stop precedes the deregistration. -/
theorem handler_sequence (wait : Nat) (profActive registryActive : Bool) :
    (handler wait profActive registryActive).take 2
        = [Action.setShuttingDown, Action.stopListeners wait] ∧
    (Action.stopProfiler ∈ handler wait profActive registryActive
        ↔ profActive = true) ∧
    (Action.deregister ∈ handler wait profActive registryActive
        ↔ registryActive = true) ∧
    (profActive = true → registryActive = true →
      handler wait profActive registryActive
        = [Action.setShuttingDown, Action.stopListeners wait,
           Action.stopProfiler, Action.deregister]) ∧
    (registryActive = false →
      lastAction (handler wait profActive registryActive) ≠
        some Action.deregister) ∧
    (∀ n, 0 < n → flagAfter n = 1) ∧
    (∀ f, storeShuttingDown f = 1) := by
  refine ⟨?_, ?_, ?_, ?_, ?_, ?_, fun _ => rfl⟩
  · cases profActive <;> cases registryActive <;> rfl
  · cases profActive <;> cases registryActive <;> simp [handler]
  · cases profActive <;> cases registryActive <;> simp [handler]
  · intro hp hr; subst hp; subst hr; rfl
  · intro hr; subst hr; cases profActive <;> simp [handler, lastAction]
  · intro n hn
    cases n with
    | zero => omega
    | succ m => rfl

theorem handler_sequence_witness :
    handler 5 true true
      = [Action.setShuttingDown, Action.stopListeners 5,
         Action.stopProfiler, Action.deregister] :=
  (handler_sequence 5 true true).2.2.2.1 rfl rfl

end Fabio.Shutdown

namespace Fabio.InitB

/-- C5 counterexample: with retry interval 1, timeout 1, a backend that
always fails and no shutdown request, the trace of the first failed
iteration is attempt, warn, deadline check, sleep, shutdown check —
the deadline check comes before the sleep, not after it as the claim
states. -/
theorem claimed_sleep_before_deadline_check_false :
    (initTrace alwaysFail noShutdown 1 1 3).take 5
        = [Act.attempt, Act.warn, Act.deadlineCheck, Act.sleep,
           Act.shutdownCheck] ∧
    ¬ (initTrace alwaysFail noShutdown 1 1 3).take 5
        = [Act.attempt, Act.warn, Act.sleep, Act.deadlineCheck,
           Act.shutdownCheck] := by
  decide

/-- C5 (amended): on every failed attempt the loop logs a warning, then
checks whether the wall-clock deadline measured from loop entry has
passed — terminating fatally if so — and only then sleeps the retry
interval, after which it checks whether shutdown has been requested,
exiting immediately without further attempts if so. -/
theorem failure_iteration_order (ok down : Nat → Bool) (R D fuel k t : Nat)
    (h : ok k = false) :
    (loop ok down R D (fuel + 1) k t).take 3
        = [Act.attempt, Act.warn, Act.deadlineCheck] ∧
    (D < t →
      loop ok down R D (fuel + 1) k t
        = [Act.attempt, Act.warn, Act.deadlineCheck, Act.fatal]) ∧
    (¬ D < t →
      (loop ok down R D (fuel + 1) k t).take 5
          = [Act.attempt, Act.warn, Act.deadlineCheck, Act.sleep,
             Act.shutdownCheck] ∧
      (down (t + R) = true →
        loop ok down R D (fuel + 1) k t
          = [Act.attempt, Act.warn, Act.deadlineCheck, Act.sleep,
             Act.shutdownCheck, Act.exitNow]) ∧
      (down (t + R) = false →
        (loop ok down R D (fuel + 1) k t).drop 5
          = loop ok down R D fuel (k + 1) (t + R))) := by
  refine ⟨?_, ?_, ?_⟩
  · by_cases hd : D < t <;> simp [loop, h, hd]
  · intro hd; simp [loop, h, hd]
  · intro hd
    refine ⟨by simp [loop, h, hd], ?_, ?_⟩
    · intro hs; simp [loop, h, hd, hs]
    · intro hs; simp [loop, h, hd, hs]

theorem failure_iteration_order_witness :
    (loop alwaysFail noShutdown 1 1 (2 + 1) 0 0).take 3
        = [Act.attempt, Act.warn, Act.deadlineCheck] :=
  (failure_iteration_order alwaysFail noShutdown 1 1 2 0 0 rfl).1

theorem lastAct_cons (a : Act) (l : List Act) (h : l ≠ []) :
    lastAct (a :: l) = lastAct l := by
  cases l with
  | nil => exact absurd rfl h
  | cons b m => rfl

theorem lastAct_ne_nil (l : List Act) (x : Act) (h : lastAct l = some x) :
    l ≠ [] := by
  intro he
  subst he
  simp [lastAct] at h

/-- With a backend that always fails and no shutdown request, a run whose
timeout is `j` retry intervals past the current elapsed time makes
exactly `j + 2` further attempts and ends in the fatal timeout. -/
theorem loop_always_fail_shape (R : Nat) (hR : 0 < R) :
    ∀ (j fuel k t : Nat), j + 2 ≤ fuel →
      countAttempts (loop alwaysFail noShutdown R (t + j * R) fuel k t)
          = j + 2 ∧
      lastAct (loop alwaysFail noShutdown R (t + j * R) fuel k t)
          = some Act.fatal := by
  intro j
  induction j with
  | zero =>
      intro fuel k t hf
      obtain ⟨f, rfl⟩ : ∃ f, fuel = f + 2 := ⟨fuel - 2, by omega⟩
      have h0 : t + 0 * R = t := by ring
      rw [h0]
      have e2 : f + 2 = (f + 1) + 1 := rfl
      rw [e2]
      simp only [loop, alwaysFail, noShutdown]
      rw [if_neg (by omega : ¬ t < t), if_pos (by omega : t < t + R)]
      constructor
      · simp [countAttempts]
      · simp [lastAct]
  | succ j ih =>
      intro fuel k t hf
      obtain ⟨f, rfl⟩ : ∃ f, fuel = f + 1 := ⟨fuel - 1, by omega⟩
      have hD : t + (j + 1) * R = (t + R) + j * R := by ring
      simp only [loop, alwaysFail, noShutdown]
      rw [if_neg (Nat.not_lt.mpr (Nat.le_add_right t ((j + 1) * R)))]
      rw [hD]
      obtain ⟨ihc, ihl⟩ := ih f (k + 1) (t + R) (by omega)
      have hne : loop alwaysFail noShutdown R ((t + R) + j * R) f (k + 1) (t + R)
          ≠ [] := lastAct_ne_nil _ _ ihl
      constructor
      · simp only [countAttempts] at ihc ⊢
        simp [List.countP_cons, ihc]
      · rw [if_neg Bool.false_ne_true, if_neg Bool.false_ne_true]
        simp only [List.cons_append, List.nil_append]
        rw [lastAct_cons _ _ (by simp), lastAct_cons _ _ (by simp),
            lastAct_cons _ _ (by simp), lastAct_cons _ _ (by simp),
            lastAct_cons _ _ hne]
        exact ihl

/-- C6 counterexample: with retry interval `R = 1` and deadline
`D = 1 = 1·R`, a backend that always fails leads to 3 registration
attempts, not `D/R + 1 = 2` as the claim states. -/
theorem claimed_attempt_count_false :
    countAttempts (initTrace alwaysFail noShutdown 1 1 5) = 3 ∧
    ¬ countAttempts (initTrace alwaysFail noShutdown 1 1 5) = 1 / 1 + 1 := by
  decide

/-- C6 (amended): for every retry interval `R > 0` and deadline
`D = m·R`, if every registration attempt fails (and attempt/log execution
time is ignored), the retry loop terminates the process fatally at the
first deadline check at which strictly more than `D` has elapsed, having
made exactly `D/R + 2` registration attempts. -/
theorem always_fail_attempt_count (m R fuel : Nat) (hR : 0 < R)
    (hfuel : m + 2 ≤ fuel) :
    countAttempts (initTrace alwaysFail noShutdown R (m * R) fuel) = m + 2 ∧
    lastAct (initTrace alwaysFail noShutdown R (m * R) fuel)
        = some Act.fatal := by
  have h := loop_always_fail_shape R hR m fuel 0 0 hfuel
  rwa [Nat.zero_add] at h

theorem always_fail_attempt_count_witness :
    countAttempts (initTrace alwaysFail noShutdown 1 (1 * 1) 3) = 1 + 2 ∧
    lastAct (initTrace alwaysFail noShutdown 1 (1 * 1) 3)
        = some Act.fatal :=
  always_fail_attempt_count 1 1 3 (by decide) (by decide)

end Fabio.InitB

namespace Fabio.Conf

/-- C7 counterexample: a listener `:8443` with proto `tcp+sni` naming a
valid certificate source is not accepted by `parseListen` — it is rejected
with the cert-source-requires-proto-https-or-tcp error (the repository's own
config tests expect exactly this rejection). -/
theorem claimed_sni_cert_source_accepted_false :
    parseListen (fun _ => Except.error "")
        [("addr", ":8443"), ("proto", "tcp+sni"), ("cs", "name")]
        [("name", { name := "name", type := "path", certPath := "value" })] 0 0
      = Except.error "cert source requires proto \x27https\x27 or \x27tcp\x27" := by
  rfl

/-- C7 (amended): a listener of proto `tcp+sni` that names a certificate
source is rejected by `parseListen` with
the cert-source-requires-proto-https-or-tcp error, whichever order the map
entries are visited in; a `tcp+sni` listener without a certificate source
is accepted, and `startServers` starts the SNI pass-through serving unit
for it. -/
theorem sni_cert_source_rejected (parseDur : String → Except String Nat)
    (addr csName : String) (c : CertSource) (rt wt : Nat)
    (haddr : addr ≠ "") (hcs : csName ≠ "") :
    parseListen parseDur
        [("addr", addr), ("proto", "tcp+sni"), ("cs", csName)]
        [(csName, c)] rt wt
      = Except.error "cert source requires proto \x27https\x27 or \x27tcp\x27" ∧
    parseListen parseDur
        [("addr", addr), ("cs", csName), ("proto", "tcp+sni")]
        [(csName, c)] rt wt
      = Except.error "cert source requires proto \x27https\x27 or \x27tcp\x27" ∧
    parseListen parseDur [("addr", addr), ("proto", "tcp+sni")]
        [(csName, c)] rt wt
      = Except.ok { addr := addr, proto := "tcp+sni",
                    readTimeout := rt, writeTimeout := wt } ∧
    startServer { addr := addr, proto := "tcp+sni",
                  readTimeout := rt, writeTimeout := wt }
      = Except.ok ServerKind.sniUnit := by
  refine ⟨?_, ?_, ?_, ?_⟩
  · simp [parseListen, parseListenLoop, haddr, hcs]
  · simp [parseListen, parseListenLoop, haddr, hcs]
  · simp [parseListen, parseListenLoop, haddr, hcs]
  · rfl

theorem sni_cert_source_rejected_witness :
    parseListen (fun _ => Except.error "")
        [("addr", ":9443"), ("cs", "mycs"), ("proto", "tcp+sni")]
        [("mycs", { name := "mycs", type := "path", certPath := "value" })] 0 0
      = Except.error "cert source requires proto \x27https\x27 or \x27tcp\x27" :=
  (sni_cert_source_rejected (fun _ => Except.error "") ":9443" "mycs"
    { name := "mycs", type := "path", certPath := "value" } 0 0
    (by decide) (by decide)).2.1

end Fabio.Conf

namespace Fabio.Lg

/-- If every inserted or deleted piece of a diff is blank (trims to the
empty string), `fmtDiff` renders nothing beyond its accumulator. -/
theorem fmtDiff_foldl_blank (diffs : List Diff)
    (h : ∀ d ∈ diffs, d.type ≠ DiffType.equal → Str.trimSpace d.text = "") :
    ∀ acc : String, diffs.foldl fmtDiffStep acc = acc := by
  induction diffs with
  | nil => intro acc; rfl
  | cons d rest ih =>
      intro acc
      have hstep : fmtDiffStep acc d = acc := by
        unfold fmtDiffStep
        by_cases ht : Str.trimSpace d.text = ""
        · simp [ht]
        · cases hty : d.type with
          | equal => simp [ht]
          | delete => exact absurd (h d (by simp) (by simp [hty])) ht
          | insert => exact absurd (h d (by simp) (by simp [hty])) ht
      rw [List.foldl_cons, hstep]
      exact ih (fun d hd hne => h d (List.mem_cons_of_mem _ hd) hne) acc

/-- C8: the delta route logger, given previous text `"a\nb"` and next text
`"a\nc"`, emits exactly `- b+ c`: it contains the deletion line `- b`
(prefix `"- "`) for `b` and the insertion line `+ c` (prefix `"+ "`) for
`c`, and no character of the common line `a` appears in the output; and
for every (previous, next) pair whose diff has no non-blank inserted or
deleted content, the delta logger emits nothing. -/
theorem delta_logger_spec (dump : String) :
    fmtDiff (diffMain "a\nb" "a\nc") = "- b+ c" ∧
    logRoutes diffMain dump "a\nb" "a\nc" "delta"
        = [LogLine.info "Config updates\n- b+ c"] ∧
    Str.containsSeg "- b+ c".data "- b".data = true ∧
    Str.containsSeg "- b+ c".data "+ c".data = true ∧
    'a' ∉ "- b+ c".data ∧
    (∀ last next : String,
      (∀ d ∈ diffMain last next,
        d.type ≠ DiffType.equal → Str.trimSpace d.text = "") →
      logRoutes diffMain dump last next "delta" = []) := by
  refine ⟨rfl, rfl, by decide, by decide, by decide, ?_⟩
  intro last next h
  have hd : fmtDiff (diffMain last next) = "" :=
    fmtDiff_foldl_blank (diffMain last next) h ""
  simp [logRoutes, logRoutesKnown, hd]

theorem delta_logger_spec_witness :
    logRoutes diffMain "" "x" "x" "delta" = [] :=
  (delta_logger_spec "").2.2.2.2.2 "x" "x" (by decide)

end Fabio.Lg

namespace Fabio.Conf

/-- C9: `parseUint16` succeeds exactly when the input parses under
`strconv.ParseUint(s, 0, 32)` and the parsed value is at most 65536
(the guard is `n > 1<<16`, so it errors exactly on parse failure or
`n > 65536`); the input `"65536"` is accepted and truncates to the
`uint16` value 0, even though the error message emitted just above the
threshold states the range as `[0..65535]`. -/
theorem parseUint16_spec :
    (∀ s : String,
      (parseUint16 s).isOk = true ↔
        ((goParseUint32 s).isSome = true ∧ (goParseUint32 s).getD 0 ≤ 65536)) ∧
    parseUint16 "65536" = Except.ok 0 ∧
    parseUint16 "65537" = Except.error "65537 out of range: [0..65535]" := by
  refine ⟨?_, by rfl, by rfl⟩
  intro s
  unfold parseUint16
  cases goParseUint32 s with
  | none => simp [Except.isOk, Except.toBool]
  | some n =>
      rw [show (2 : Nat) ^ 16 = 65536 from by norm_num]
      by_cases hn : 65536 < n
      · simp [hn, Except.isOk, Except.toBool]
      · simp [hn, Except.isOk, Except.toBool]
        omega

theorem parseUint16_spec_witness :
    (parseUint16 "65536").isOk = true :=
  (parseUint16_spec.1 "65536").mpr (by decide)

end Fabio.Conf

namespace Fabio.Iam

/-- C10: `iam.New` returns an error for every Auth config whose Type is
not `"dummy"` (with a nil handle); when Type is `"dummy"` it returns the
`DummyIAM` handle with a nil error, and that handle's `Init`,
`Authenticate` and `Authorize` return nil errors for every input — every
request is authenticated and authorized unconditionally. -/
theorem new_dummy_spec (conf : Auth) (r : Request) (d : Unit) (s : String) :
    (conf.type ≠ "dummy" →
      New conf = (Option.none, some ("unsupported auth type: " ++ conf.type))) ∧
    (conf.type = "dummy" → New conf = (some dummyIAM, Option.none)) ∧
    dummyIAM.init s = Option.none ∧
    dummyIAM.authenticate r = ((), Option.none) ∧
    dummyIAM.authorize r d = Option.none := by
  refine ⟨?_, ?_, rfl, rfl, rfl⟩
  · intro h; simp [New, h]
  · intro h; simp [New, h, dummyIAM]

theorem new_dummy_spec_witness :
    New { type := "dummy", configFile := "f" } = (some dummyIAM, Option.none) :=
  (new_dummy_spec { type := "dummy", configFile := "f" } {} () "f").2.1 rfl

end Fabio.Iam
